import Mathlib

/-!
Verification of the tweak-ledger and profile-application component of the
Frog-Tech Optimizer (`optimizer.py`).

The ledger lives in the attributes `applied_tweaks` (a Python set),
`tweak_history` (a list of dicts), `current_profile`, `last_resolution`
(a tuple) and `last_refresh_rate`, persisted as JSON in
`frog_tech_tweaks.json`.  We embed JSON values as the inductive `JVal`,
model the persistence file as a `FileState`, and translate the methods
`save_tweaks`, `load_saved_tweaks`, `track_tweak`, `clear_saved_tweaks`,
`clear_saved_tweaks_old`, `export_tweaks`, `import_tweaks` and the
profile-application helpers directly from the source.  Python exceptions
that the source catches are modelled by explicit branching; a returned
`Bool` mirrors the source's `return True` / `return False` (or, for
`track_tweak`, normal versus exceptional completion).
-/

/-- A hashable JSON scalar: the only values Python allows as elements of
a `set` (JSON arrays and objects map to unhashable `list`s / `dict`s).
Numbers are modelled as integers (all numeric fields of the component are
integral). -/
inductive JScalar where
  | null : JScalar
  | bool : Bool → JScalar
  | num : Int → JScalar
  | str : String → JScalar
deriving DecidableEq, Repr

/-- A JSON value, as read or written by `json.load` / `json.dump`. -/
inductive JVal where
  | null : JVal
  | bool : Bool → JVal
  | num : Int → JVal
  | str : String → JVal
  | arr : List JVal → JVal
  | obj : List (String × JVal) → JVal

/-- Embed a scalar into the JSON values. -/
def JScalar.toJVal : JScalar → JVal
  | .null => .null
  | .bool b => .bool b
  | .num n => .num n
  | .str s => .str s

/-- Project a JSON value to a scalar; `none` for arrays and objects
(Python: unhashable). -/
def JVal.toScalar : JVal → Option JScalar
  | .null => some .null
  | .bool b => some (.bool b)
  | .num n => some (.num n)
  | .str s => some (.str s)
  | .arr _ => none
  | .obj _ => none

/-- `insertEnd l x` models `set.add`: the canonical list representation of
a Python set gains `x` at the end unless it is already present. -/
def insertEnd (l : List JScalar) (x : JScalar) : List JScalar :=
  if x ∈ l then l else l ++ [x]

/-- Canonical enumeration of the Python set built from the elements of
`xs` (first occurrence kept, later duplicates dropped). -/
def dedupF (xs : List JScalar) : List JScalar :=
  xs.foldl insertEnd []

/-- Hash-check and collect the elements of a Python iterable: `none` as
soon as one element is unhashable (Python: `TypeError` from `set(...)`). -/
def toScalars : List JVal → Option (List JScalar)
  | [] => some []
  | x :: xs =>
    match x.toScalar, toScalars xs with
    | some s, some rest => some (s :: rest)
    | _, _ => none

/-- Python `set(x)`: `none` models the `TypeError` raised on a
non-iterable argument or an unhashable element; on a string Python
iterates over its characters, on a dict over its keys. -/
def pySet : JVal → Option (List JScalar)
  | .arr xs => (toScalars xs).map dedupF
  | .str s => some (dedupF (s.data.map fun c => JScalar.str c.toString))
  | .obj fs => some (dedupF (fs.map fun kv => JScalar.str kv.1))
  | _ => none

/-- Python `tuple(x)`: `none` models the `TypeError` raised on a
non-iterable argument. -/
def pyTuple : JVal → Option (List JVal)
  | .arr xs => some xs
  | .str s => some (s.data.map fun c => JVal.str c.toString)
  | .obj fs => some (fs.map fun kv => JVal.str kv.1)
  | _ => none

/-- Python `dict.get(key, default)` on a parsed-JSON dict (keys are
unique, so first match suffices). -/
def lookupD : List (String × JVal) → String → JVal → JVal
  | [], _, d => d
  | (k, x) :: rest, key, d => if k = key then x else lookupD rest key d

/-- The in-memory ledger attributes of the application object. The field
types reflect what the Python attributes can dynamically hold:
`applied_tweaks` is a set (canonical duplicate-free list of hashables),
the other fields are arbitrary JSON-representable values
(`last_resolution` is a tuple, modelled as a list). -/
structure Ledger where
  applied_tweaks : List JScalar
  tweak_history : JVal
  current_profile : JVal
  last_resolution : List JVal
  last_refresh_rate : JVal

/-- The persistence file `frog_tech_tweaks.json`: missing, present but
unreadable/unparseable, or holding a parsed JSON value. -/
inductive FileState where
  | absent : FileState
  | corrupt : FileState
  | json : JVal → FileState

/-- Ledger state together with the persistence file. -/
structure Sys where
  ledger : Ledger
  file : FileState

/-- The dict built by `save_tweaks` (and dumped to the persistence file):
ledger fields plus a save timestamp and static system info. `ts`, `p`,
`v` stand for `time.strftime(...)`, `platform.platform()`,
`sys.version`. -/
def save_data (l : Ledger) (ts p v : String) : JVal :=
  .obj [("applied_tweaks", .arr (l.applied_tweaks.map JScalar.toJVal)),
        ("tweak_history", l.tweak_history),
        ("current_profile", l.current_profile),
        ("timestamp", .str ts),
        ("system_info", .obj [("platform", .str p), ("python_version", .str v)]),
        ("last_resolution", .arr l.last_resolution),
        ("last_refresh_rate", l.last_refresh_rate)]

/-- `save_tweaks`: writes `save_data` to the persistence file and returns
`True` (write errors are out of scope; the source would log and return
`False`). -/
def save_tweaks (s : Sys) (ts p v : String) : Sys × Bool :=
  ({ s with file := .json (save_data s.ledger ts p v) }, true)

/-- `load_saved_tweaks`: reads the persistence file if it exists and
repopulates the ledger from its fields, with the source's defaults.  The
whole body sits in `try/except`, so any raised error is swallowed and the
method returns `False`; assignments made before the raise persist. -/
def load_saved_tweaks (s : Sys) : Sys × Bool :=
  match s.file with
  | .absent => (s, false)
  | .corrupt => (s, false)
  | .json w =>
    match w with
    | .obj fs =>
      match pySet (lookupD fs "applied_tweaks" (.arr [])) with
      | none => (s, false)
      | some a =>
        let l1 : Ledger :=
          { s.ledger with
            applied_tweaks := a,
            tweak_history := lookupD fs "tweak_history" (.arr []),
            current_profile := lookupD fs "current_profile" .null }
        match pyTuple (lookupD fs "last_resolution" (.arr [.num 1920, .num 1080])) with
        | none => ({ s with ledger := l1 }, false)
        | some r =>
          ({ s with ledger :=
              { l1 with
                last_resolution := r,
                last_refresh_rate := lookupD fs "last_refresh_rate" (.num 60) } }, true)
    | _ => (s, false)

/-- The history dict appended by `track_tweak`:
`{'tweak': name, 'timestamp': ..., 'success': True}`. -/
def mkRecord (name ts : String) : JVal :=
  .obj [("tweak", .str name), ("timestamp", .str ts), ("success", .bool true)]

/-- `track_tweak(name, success)`: on success, adds `name` to the applied
set, appends a history record, and calls `save_tweaks`.  The method has
no `try/except` of its own, so if `tweak_history` does not support
`.append` (not a list) the `AttributeError` propagates to the caller
after the set was already mutated; the returned `Bool` is `true` on
normal completion and `false` when the exception escapes. -/
def track_tweak (s : Sys) (name : String) (success : Bool) (ts p v : String) :
    Sys × Bool :=
  if success then
    let l1 : Ledger :=
      { s.ledger with applied_tweaks := insertEnd s.ledger.applied_tweaks (.str name) }
    match l1.tweak_history with
    | .arr h =>
      save_tweaks
        { s with ledger := { l1 with tweak_history := .arr (h ++ [mkRecord name ts]) } }
        ts p v
    | _ => ({ s with ledger := l1 }, false)
  else (s, true)

/-- `get_tweak_status(name)`: membership in the applied set. -/
def get_tweak_status (s : Sys) (name : String) : Bool :=
  JScalar.str name ∈ s.ledger.applied_tweaks

/-- Python `.clear()` on the history attribute: lists and dicts empty in
place, anything else raises `AttributeError` (`none`). -/
def clearHistory : JVal → Option JVal
  | .arr _ => some (.arr [])
  | .obj _ => some (.obj [])
  | _ => none

/-- Shared body of the two clear methods: remove the persistence file if
present, empty the applied set, empty the history, reset the profile.
If `tweak_history.clear()` raises, the exception is caught after the file
removal and set clearing already happened. -/
def clearCore (s : Sys) : Sys × Bool :=
  let s1 : Sys := { ledger := { s.ledger with applied_tweaks := [] }, file := .absent }
  match clearHistory s1.ledger.tweak_history with
  | some h =>
    ({ s1 with ledger := { s1.ledger with tweak_history := h, current_profile := .null } },
     true)
  | none => (s1, false)

/-- `clear_saved_tweaks`: asks the user for confirmation (the
`confirmed` argument models the messagebox answer) and clears only when
confirmed; returns `True` either way unless clearing raised. -/
def clear_saved_tweaks (confirmed : Bool) (s : Sys) : Sys × Bool :=
  if confirmed then clearCore s else (s, true)

/-- `clear_saved_tweaks_old`: the second, unconditional clear
implementation. -/
def clear_saved_tweaks_old (s : Sys) : Sys × Bool :=
  clearCore s

/-- The dict written by `export_tweaks`: ledger fields plus an
`export_timestamp` and system info — and, unlike `save_data`, no
`last_resolution` or `last_refresh_rate` entry. -/
def export_data (l : Ledger) (ts p v : String) : JVal :=
  .obj [("applied_tweaks", .arr (l.applied_tweaks.map JScalar.toJVal)),
        ("tweak_history", l.tweak_history),
        ("current_profile", l.current_profile),
        ("export_timestamp", .str ts),
        ("system_info", .obj [("platform", .str p), ("python_version", .str v)])]

/-- `export_tweaks(filename)`: writes `export_data` to the caller-chosen
path (returned as the written JSON content; the primary persistence file
and the ledger are untouched) and returns `True`. -/
def export_tweaks (s : Sys) (ts p v : String) : JVal × Bool :=
  (export_data s.ledger ts p v, true)

/-- `import_tweaks(filename)`: reads a JSON file from an arbitrary path,
replaces `applied_tweaks`, `tweak_history` and `current_profile` wholesale
with the file's fields, then calls `save_tweaks`.  Any raised error
(missing/unreadable file, parse error, non-dict root, failing `set(...)`)
is caught and the method returns `False` with the ledger untouched. -/
def import_tweaks (s : Sys) (f : FileState) (ts p v : String) : Sys × Bool :=
  match f with
  | .absent => (s, false)
  | .corrupt => (s, false)
  | .json w =>
    match w with
    | .obj fs =>
      match pySet (lookupD fs "applied_tweaks" (.arr [])) with
      | none => (s, false)
      | some a =>
        save_tweaks
          { s with ledger :=
              { s.ledger with
                applied_tweaks := a,
                tweak_history := lookupD fs "tweak_history" (.arr []),
                current_profile := lookupD fs "current_profile" .null } }
          ts p v
    | _ => (s, false)

/-- The keys of a JSON object (empty for non-objects). -/
def jKeys : JVal → List String
  | .obj fs => fs.map Prod.fst
  | _ => []

/-! ### Helper lemmas about the set representation -/

theorem toScalar_toJVal (x : JScalar) : x.toJVal.toScalar = some x := by
  cases x <;> rfl

theorem toScalars_map_toJVal (l : List JScalar) :
    toScalars (l.map JScalar.toJVal) = some l := by
  induction l with
  | nil => rfl
  | cons x xs ih => simp [toScalars, toScalar_toJVal, ih]

theorem mem_insertEnd (l : List JScalar) (x y : JScalar) :
    y ∈ insertEnd l x ↔ y ∈ l ∨ y = x := by
  by_cases h : x ∈ l
  · simp only [insertEnd, if_pos h]
    constructor
    · exact Or.inl
    · rintro (hy | rfl)
      · exact hy
      · exact h
  · simp [insertEnd, if_neg h]

theorem mem_foldl_insertEnd (l : List JScalar) :
    ∀ (acc : List JScalar) (y : JScalar),
      y ∈ l.foldl insertEnd acc ↔ y ∈ acc ∨ y ∈ l := by
  induction l with
  | nil => simp
  | cons x xs ih =>
    intro acc y
    simp only [List.foldl_cons, ih, mem_insertEnd, List.mem_cons]
    tauto

theorem mem_dedupF (l : List JScalar) (y : JScalar) : y ∈ dedupF l ↔ y ∈ l := by
  simp [dedupF, mem_foldl_insertEnd]

theorem toFinset_dedupF (l : List JScalar) : (dedupF l).toFinset = l.toFinset := by
  ext y
  simp [List.mem_toFinset, mem_dedupF]

theorem count_insertEnd_twice (l : List JScalar) (x : JScalar) (h : l.Nodup) :
    (insertEnd (insertEnd l x) x).count x = 1 := by
  by_cases hx : x ∈ l
  · have h1 : insertEnd l x = l := if_pos hx
    rw [h1, h1]
    exact List.count_eq_one_of_mem h hx
  · have h1 : insertEnd l x = l ++ [x] := if_neg hx
    have hx2 : x ∈ l ++ [x] := by simp
    have h2 : insertEnd (l ++ [x]) x = l ++ [x] := if_pos hx2
    rw [h1, h2, List.count_append]
    simp [List.count_eq_zero.mpr hx]

/-! ### Claim theorems -/

/-- C9: `track_tweak(name, False)` is a complete no-op: the applied set,
history, current profile, display fields and the persistence file all
keep their prior values, and no save happens. -/
theorem track_failure_noop (s : Sys) (name ts p v : String) :
    track_tweak s name false ts p v = (s, true) := rfl

/-- C10: `import_tweaks` never touches `last_resolution` or
`last_refresh_rate`, whatever the imported file contains (well-formed or
not). -/
theorem import_preserves_display_fields (s : Sys) (f : FileState) (ts p v : String) :
    (import_tweaks s f ts p v).1.ledger.last_resolution = s.ledger.last_resolution ∧
    (import_tweaks s f ts p v).1.ledger.last_refresh_rate = s.ledger.last_refresh_rate := by
  cases f with
  | absent => exact ⟨rfl, rfl⟩
  | corrupt => exact ⟨rfl, rfl⟩
  | json w =>
    cases w with
    | null => exact ⟨rfl, rfl⟩
    | bool b => exact ⟨rfl, rfl⟩
    | num n => exact ⟨rfl, rfl⟩
    | str t => exact ⟨rfl, rfl⟩
    | arr xs => exact ⟨rfl, rfl⟩
    | obj fs =>
      cases hp : pySet (lookupD fs "applied_tweaks" (.arr [])) with
      | none => simp [import_tweaks, hp]
      | some a => simp [import_tweaks, hp, save_tweaks]

/-- C2 (counterexample): the export file does not have the same key set
as the primary persistence file — `last_resolution` and
`last_refresh_rate` appear in the saved file but not in the exported
one. -/
theorem export_shape_counterexample :
    "last_resolution" ∈ jKeys (save_data ⟨[], .arr [], .null, [], .num 60⟩ "t" "p" "v") ∧
    "last_resolution" ∉ jKeys (export_data ⟨[], .arr [], .null, [], .num 60⟩ "t" "p" "v") ∧
    "last_refresh_rate" ∉ jKeys (export_data ⟨[], .arr [], .null, [], .num 60⟩ "t" "p" "v") := by
  refine ⟨?_, ?_, ?_⟩ <;> decide

/-- C2 (amended): the export file holds `applied_tweaks`,
`tweak_history`, `current_profile` and `system_info`, with
`export_timestamp` in place of `timestamp`, but omits the saved file's
`last_resolution` and `last_refresh_rate` keys. -/
theorem export_save_key_sets (l : Ledger) (ts p v : String) :
    jKeys (export_data l ts p v) =
      ["applied_tweaks", "tweak_history", "current_profile",
       "export_timestamp", "system_info"] ∧
    jKeys (save_data l ts p v) =
      ["applied_tweaks", "tweak_history", "current_profile", "timestamp",
       "system_info", "last_resolution", "last_refresh_rate"] := ⟨rfl, rfl⟩

/-- C6: clearing (with the confirmation dialog answered yes) empties the
applied set and the history, resets the current profile to `None`, and
removes the persistence file; the old clear implementation does exactly
the same. -/
theorem clear_resets_ledger (s : Sys) (h : List JVal)
    (hh : s.ledger.tweak_history = .arr h) :
    (clear_saved_tweaks true s).1.ledger.applied_tweaks = [] ∧
    (clear_saved_tweaks true s).1.ledger.tweak_history = .arr [] ∧
    (clear_saved_tweaks true s).1.ledger.current_profile = .null ∧
    (clear_saved_tweaks true s).1.file = .absent ∧
    clear_saved_tweaks_old s = clear_saved_tweaks true s := by
  refine ⟨?_, ?_, ?_, ?_, rfl⟩ <;>
    simp [clear_saved_tweaks, clearCore, clearHistory, hh]

/-- C6 witness: the clearing theorem applied to a concrete non-empty
ledger with a present persistence file. -/
theorem clear_resets_ledger_witness :
    (⟨⟨[.str "a"], .arr [mkRecord "a" "t"], .str "balanced", [.num 800, .num 600],
        .num 120⟩, .json .null⟩ : Sys).ledger.tweak_history = .arr [mkRecord "a" "t"] ∧
    ((clear_saved_tweaks true ⟨⟨[.str "a"], .arr [mkRecord "a" "t"], .str "balanced",
        [.num 800, .num 600], .num 120⟩, .json .null⟩).1.ledger.applied_tweaks = [] ∧
     (clear_saved_tweaks true ⟨⟨[.str "a"], .arr [mkRecord "a" "t"], .str "balanced",
        [.num 800, .num 600], .num 120⟩, .json .null⟩).1.ledger.tweak_history = .arr [] ∧
     (clear_saved_tweaks true ⟨⟨[.str "a"], .arr [mkRecord "a" "t"], .str "balanced",
        [.num 800, .num 600], .num 120⟩, .json .null⟩).1.ledger.current_profile = .null ∧
     (clear_saved_tweaks true ⟨⟨[.str "a"], .arr [mkRecord "a" "t"], .str "balanced",
        [.num 800, .num 600], .num 120⟩, .json .null⟩).1.file = .absent ∧
     clear_saved_tweaks_old ⟨⟨[.str "a"], .arr [mkRecord "a" "t"], .str "balanced",
        [.num 800, .num 600], .num 120⟩, .json .null⟩ =
       clear_saved_tweaks true ⟨⟨[.str "a"], .arr [mkRecord "a" "t"], .str "balanced",
        [.num 800, .num 600], .num 120⟩, .json .null⟩) :=
  ⟨rfl, clear_resets_ledger _ [mkRecord "a" "t"] rfl⟩

/-- Evaluation of `load_saved_tweaks` on a file just written by
`save_tweaks`: every field is restored, the applied set up to its
canonical re-enumeration by `set(...)`. -/
theorem load_of_save (s : Sys) (ts p v : String) :
    load_saved_tweaks (save_tweaks s ts p v).1 =
      ({ ledger := { s.ledger with applied_tweaks := dedupF s.ledger.applied_tweaks },
         file := .json (save_data s.ledger ts p v) }, true) := by
  simp [load_saved_tweaks, save_tweaks, save_data, lookupD, pySet, pyTuple,
    toScalars_map_toJVal]

/-- C1: `save_tweaks` followed by `load_saved_tweaks` on the written file
reproduces the applied set, the history sequence (element-wise, in
order), and the current profile. -/
theorem save_load_round_trip (s : Sys) (ts p v : String) :
    (load_saved_tweaks (save_tweaks s ts p v).1).1.ledger.applied_tweaks.toFinset
        = s.ledger.applied_tweaks.toFinset ∧
    (load_saved_tweaks (save_tweaks s ts p v).1).1.ledger.tweak_history
        = s.ledger.tweak_history ∧
    (load_saved_tweaks (save_tweaks s ts p v).1).1.ledger.current_profile
        = s.ledger.current_profile := by
  rw [load_of_save]
  exact ⟨toFinset_dedupF _, rfl, rfl⟩

/-- `True` exactly on JSON objects. -/
def JVal.isObj : JVal → Bool
  | .obj _ => true
  | _ => false

/-- The failing inputs on which `load_saved_tweaks` raises (or finds
nothing) before any ledger attribute was assigned: missing file,
unreadable/unparseable file, non-dict JSON root, or an `applied_tweaks`
value that `set(...)` rejects. -/
def loadFailsEarly (s : Sys) : Prop :=
  s.file = .absent ∨ s.file = .corrupt ∨
  (∃ w, s.file = .json w ∧ w.isObj = false) ∨
  (∃ fs, s.file = .json (.obj fs) ∧
    pySet (lookupD fs "applied_tweaks" (.arr [])) = none)

/-- C4 (counterexample): a parseable file whose `last_resolution` field
has the wrong type (a number, so `tuple(...)` raises) makes
`load_saved_tweaks` return without an exception but with
`applied_tweaks` already replaced — the prior ledger state is NOT left
intact on this failing input. -/
theorem load_partial_update_counterexample :
    (load_saved_tweaks ⟨⟨[.str "B"], .arr [], .null, [.num 800, .num 600], .num 60⟩,
        .json (.obj [("applied_tweaks", .arr [.str "A"]),
                     ("last_resolution", .num 5)])⟩).2 = false ∧
    (load_saved_tweaks ⟨⟨[.str "B"], .arr [], .null, [.num 800, .num 600], .num 60⟩,
        .json (.obj [("applied_tweaks", .arr [.str "A"]),
                     ("last_resolution", .num 5)])⟩).1.ledger.applied_tweaks
      = [.str "A"] ∧
    (⟨⟨[.str "B"], .arr [], .null, [.num 800, .num 600], .num 60⟩,
        .json (.obj [("applied_tweaks", .arr [.str "A"]),
                     ("last_resolution", .num 5)])⟩ : Sys).ledger.applied_tweaks
      = [.str "B"] ∧
    ([JScalar.str "A"] : List JScalar) ≠ [JScalar.str "B"] := by
  refine ⟨rfl, ?_, rfl, by decide⟩
  decide

/-- C4 (amended): `load_saved_tweaks` raises no exception, and on every
failing input that occurs before the first attribute assignment (missing
file, read or parse error, non-dict root, invalid `applied_tweaks`) it
leaves the entire state exactly as it was and returns `False`. -/
theorem load_fails_soft_preserves_state (s : Sys) (h : loadFailsEarly s) :
    load_saved_tweaks s = (s, false) := by
  rcases h with h | h | ⟨w, hw, hno⟩ | ⟨fs, hw, hp⟩
  · simp [load_saved_tweaks, h]
  · simp [load_saved_tweaks, h]
  · cases w <;> simp_all [load_saved_tweaks, JVal.isObj]
  · simp [load_saved_tweaks, hw, hp]

/-- C4 witness: the soft-failure theorem applied to a concrete ledger
with a missing persistence file. -/
theorem load_fails_soft_preserves_state_witness :
    loadFailsEarly ⟨⟨[.str "B"], .arr [], .null, [.num 800, .num 600], .num 60⟩,
        .absent⟩ ∧
    load_saved_tweaks ⟨⟨[.str "B"], .arr [], .null, [.num 800, .num 600], .num 60⟩,
        .absent⟩
      = (⟨⟨[.str "B"], .arr [], .null, [.num 800, .num 600], .num 60⟩, .absent⟩, false) :=
  ⟨Or.inl rfl,
   load_fails_soft_preserves_state
     ⟨⟨[.str "B"], .arr [], .null, [.num 800, .num 600], .num 60⟩, .absent⟩
     (Or.inl rfl)⟩

/-- C5: on a well-formed import file, `import_tweaks` returns `True`,
replaces `applied_tweaks`, `tweak_history` and `current_profile`
wholesale with the file's fields (no merging with the prior state), and
persists the imported ledger through `save_tweaks`. -/
theorem import_replaces_wholesale (s : Sys) (fs : List (String × JVal))
    (a : List JScalar) (ts p v : String)
    (ha : pySet (lookupD fs "applied_tweaks" (.arr [])) = some a) :
    (import_tweaks s (.json (.obj fs)) ts p v).2 = true ∧
    (import_tweaks s (.json (.obj fs)) ts p v).1.ledger.applied_tweaks = a ∧
    (import_tweaks s (.json (.obj fs)) ts p v).1.ledger.tweak_history
      = lookupD fs "tweak_history" (.arr []) ∧
    (import_tweaks s (.json (.obj fs)) ts p v).1.ledger.current_profile
      = lookupD fs "current_profile" .null ∧
    (import_tweaks s (.json (.obj fs)) ts p v).1.file
      = .json (save_data (import_tweaks s (.json (.obj fs)) ts p v).1.ledger ts p v) := by
  simp [import_tweaks, ha, save_tweaks]

/-- C5 witness: importing a file whose applied set is `{"A"}` over a
ledger whose applied set is `{"B"}` yields exactly `{"A"}`. -/
theorem import_replaces_wholesale_witness :
    pySet (lookupD [("applied_tweaks", JVal.arr [.str "A"])] "applied_tweaks" (.arr []))
      = some [JScalar.str "A"] ∧
    ((import_tweaks ⟨⟨[.str "B"], .arr [], .null, [], .num 60⟩,
        .json (.obj [("applied_tweaks", JVal.arr [.str "A"])])⟩
        (.json (.obj [("applied_tweaks", JVal.arr [.str "A"])])) "t" "p" "v").2 = true ∧
     (import_tweaks ⟨⟨[.str "B"], .arr [], .null, [], .num 60⟩,
        .json (.obj [("applied_tweaks", JVal.arr [.str "A"])])⟩
        (.json (.obj [("applied_tweaks", JVal.arr [.str "A"])])) "t" "p" "v").1.ledger.applied_tweaks
      = [JScalar.str "A"] ∧
     (import_tweaks ⟨⟨[.str "B"], .arr [], .null, [], .num 60⟩,
        .json (.obj [("applied_tweaks", JVal.arr [.str "A"])])⟩
        (.json (.obj [("applied_tweaks", JVal.arr [.str "A"])])) "t" "p" "v").1.ledger.tweak_history
      = lookupD [("applied_tweaks", JVal.arr [.str "A"])] "tweak_history" (.arr []) ∧
     (import_tweaks ⟨⟨[.str "B"], .arr [], .null, [], .num 60⟩,
        .json (.obj [("applied_tweaks", JVal.arr [.str "A"])])⟩
        (.json (.obj [("applied_tweaks", JVal.arr [.str "A"])])) "t" "p" "v").1.ledger.current_profile
      = lookupD [("applied_tweaks", JVal.arr [.str "A"])] "current_profile" .null ∧
     (import_tweaks ⟨⟨[.str "B"], .arr [], .null, [], .num 60⟩,
        .json (.obj [("applied_tweaks", JVal.arr [.str "A"])])⟩
        (.json (.obj [("applied_tweaks", JVal.arr [.str "A"])])) "t" "p" "v").1.file
      = .json (save_data
          (import_tweaks ⟨⟨[.str "B"], .arr [], .null, [], .num 60⟩,
            .json (.obj [("applied_tweaks", JVal.arr [.str "A"])])⟩
            (.json (.obj [("applied_tweaks", JVal.arr [.str "A"])])) "t" "p" "v").1.ledger
          "t" "p" "v")) :=
  ⟨by decide,
   import_replaces_wholesale _ [("applied_tweaks", JVal.arr [.str "A"])]
     [JScalar.str "A"] "t" "p" "v" (by decide)⟩

/-- C8: feeding the file written by `export_tweaks` straight into
`import_tweaks` reproduces exactly the exported applied set. -/
theorem export_import_round_trip (s : Sys) (ts1 p1 v1 ts2 p2 v2 : String) :
    (import_tweaks s (.json (export_tweaks s ts1 p1 v1).1) ts2 p2 v2).1.ledger.applied_tweaks.toFinset
      = s.ledger.applied_tweaks.toFinset ∧
    (import_tweaks s (.json (export_tweaks s ts1 p1 v1).1) ts2 p2 v2).2 = true := by
  simp [import_tweaks, export_tweaks, export_data, lookupD, pySet,
    toScalars_map_toJVal, save_tweaks, toFinset_dedupF]

/-- C7: tracking the same tweak twice with success leaves it in the
applied set exactly once, while appending exactly two new history
records for it. -/
theorem track_twice_idempotent (s : Sys) (name ts1 ts2 p v : String) (h : List JVal)
    (hnd : s.ledger.applied_tweaks.Nodup) (hh : s.ledger.tweak_history = .arr h) :
    (track_tweak (track_tweak s name true ts1 p v).1 name true
        ts2 p v).1.ledger.applied_tweaks.count (.str name) = 1 ∧
    (track_tweak (track_tweak s name true ts1 p v).1 name true
        ts2 p v).1.ledger.tweak_history
      = .arr (h ++ [mkRecord name ts1, mkRecord name ts2]) := by
  constructor
  · simp [track_tweak, hh, save_tweaks]
    exact count_insertEnd_twice _ _ hnd
  · simp [track_tweak, hh, save_tweaks]

/-- C7 witness: the idempotence theorem applied to the fresh empty
ledger. -/
theorem track_twice_idempotent_witness :
    (⟨⟨[], .arr [], .null, [], .num 60⟩, .absent⟩ : Sys).ledger.applied_tweaks.Nodup ∧
    (⟨⟨[], .arr [], .null, [], .num 60⟩, .absent⟩ : Sys).ledger.tweak_history = .arr [] ∧
    ((track_tweak (track_tweak ⟨⟨[], .arr [], .null, [], .num 60⟩, .absent⟩
        "disable_telemetry" true "t1" "p" "v").1 "disable_telemetry" true
        "t2" "p" "v").1.ledger.applied_tweaks.count (.str "disable_telemetry") = 1 ∧
     (track_tweak (track_tweak ⟨⟨[], .arr [], .null, [], .num 60⟩, .absent⟩
        "disable_telemetry" true "t1" "p" "v").1 "disable_telemetry" true
        "t2" "p" "v").1.ledger.tweak_history
      = .arr ([] ++ [mkRecord "disable_telemetry" "t1", mkRecord "disable_telemetry" "t2"])) :=
  ⟨by decide, rfl,
   track_twice_idempotent ⟨⟨[], .arr [], .null, [], .num 60⟩, .absent⟩
     "disable_telemetry" "t1" "t2" "p" "v" [] (by decide) rfl⟩

